import Mathlib

/-!
Verification of the sales-period aggregation pipeline of
`analyseventes.py` (function `analyser_ventes_francophones` and helper
`analyser_multiple_regroupements`).

The embedding is shallow and exact:

* CSV reading, chart rendering and console printing are external
  collaborators and are not modelled; the pipeline starts from the loaded
  table (a column-name list plus a list of raw rows).
* A raw row carries the raw country field (a list of characters, Python
  `str`) and the result of parsing its date field (`Option Date`, `none`
  meaning `pd.to_datetime` would fail on it).
* Counts are `Nat`; the percentage step, which in the source runs on
  float64 columns, is embedded twice: over exact rationals `ℚ` (the
  pre-rounding ideal) and in a binary64 model (`F64`) that follows the
  program's floating-point arithmetic operation by operation.
* Python early-`return`-with-printed-message and uncaught exceptions both
  yield `Except.error`, tagged by the error taxonomy of the script.
-/

/-- A calendar date, the parsed value of a date cell.  Fields are `Int`
to keep the day-number arithmetic uniform. -/
structure Date where
  year : Int
  month : Int
  day : Int
deriving DecidableEq, Repr

/-- Day number of a civil date (days since 1970-01-01, the standard
civil-calendar algorithm).  Timestamps compare chronologically by this
number, which embeds the pandas timestamp ordering used by the filter
`df[df[colonne_date] >= date_limite]`. -/
def Date.toDays (dt : Date) : Int :=
  let y := if dt.month ≤ 2 then dt.year - 1 else dt.year
  let era := y.fdiv 400
  let yoe := y - era * 400
  let mp := (dt.month + 9).emod 12
  let doy := (153 * mp + 2).fdiv 5 + dt.day - 1
  let doe := yoe * 365 + yoe.fdiv 4 - yoe.fdiv 100 + doy
  era * 146097 + doe - 719468

/-- The four time-bucket granularities accepted by the script:
`'W'`, `'M'`, `'Q'`, `'Y'`. -/
inductive Gran where
  | W
  | M
  | Q
  | Y
deriving DecidableEq, Repr

/-- The period key of a timestamp at a granularity, encoded as an
integer so that integer order is the pandas `Period` order
(`df[colonne_date].dt.to_period(regroupement)`).  Month, quarter and
year keys follow the calendar fields; the week key is modelled from
the spec: pandas weekly periods are seven-day blocks, and the spec
fixes Monday-start (ISO) weeks as the documented boundary choice, so
the key is the index of the Monday-start week containing the day
(1970-01-01 was a Thursday, hence the offset 3). -/
def periodKey (d : Date) : Gran → Int
  | Gran.W => (d.toDays + 3).fdiv 7
  | Gran.M => d.year * 12 + (d.month - 1)
  | Gran.Q => d.year * 4 + (d.month - 1).fdiv 3
  | Gran.Y => d.year

/-- A transaction record after date parsing: the raw country field and
the parsed timestamp. -/
structure Record where
  pays : List Char
  date : Date
deriving DecidableEq, Repr

/-- The fixed francophone country whitelist of the script:
`pays_francophones = ['fr', 'be', 'ch', 'nc', 'ca', 'lu']`. -/
def pays_francophones : List (List Char) :=
  [['f', 'r'], ['b', 'e'], ['c', 'h'], ['n', 'c'], ['c', 'a'], ['l', 'u']]

/-- Whitespace characters removed by Python `str.strip()` (the ASCII
ones; the country cells are two-letter codes). -/
def isPySpace (c : Char) : Bool :=
  c = ' ' || c = '\t' || c = '\n' || c = '\r' || c = '\x0b' || c = '\x0c'

/-- Python `str.strip()`: drop leading and trailing whitespace. -/
def stripChars (cs : List Char) : List Char :=
  ((cs.dropWhile isPySpace).reverse.dropWhile isPySpace).reverse

/-- The normalisation applied to the country column:
`df[colonne_pays].str.lower().str.strip()`. -/
def normalizeCountry (cs : List Char) : List Char :=
  stripChars (cs.map Char.toLower)

/-- The classification `df[colonne_pays].isin(pays_francophones)` applied
to a raw country cell after normalisation. -/
def est_francophone (cs : List Char) : Bool :=
  pays_francophones.contains (normalizeCountry cs)

/-- The date filter `df = df[df[colonne_date] >= date_limite]`:
keep the records whose timestamp is on or after the cutoff. -/
def filter_by_start_date (rs : List Record) (lim : Date) : List Record :=
  rs.filter (fun r => lim.toDays ≤ r.date.toDays)

/-- The distinct period keys of a key list, ascending — the row index
produced by `df.groupby(['periode', 'est_francophone']).size().unstack(...)`
(pandas groupby sorts the group keys). -/
def sortedKeys (l : List Int) : List Int :=
  l.dedup.insertionSort (· ≤ ·)

/-- One row of the counts table `ventes_par_periode`: period key,
`'Autres pays'` count, `'Pays francophones'` count, and the `'Total'`
column added as their sum (line `ventes_par_periode['Total'] = ...`). -/
structure Aggregate where
  periode : Int
  autres : Nat
  francophones : Nat
  total : Nat
deriving DecidableEq, Repr

/-- The counts row of one period key: records of the period split by
classification, with the total column as their sum. -/
def aggRow (rs : List Record) (g : Gran) (k : Int) : Aggregate :=
  { periode := k
    autres := rs.countP (fun r => periodKey r.date g == k && !est_francophone r.pays)
    francophones := rs.countP (fun r => periodKey r.date g == k && est_francophone r.pays)
    total := rs.countP (fun r => periodKey r.date g == k && !est_francophone r.pays)
      + rs.countP (fun r => periodKey r.date g == k && est_francophone r.pays) }

/-- The aggregation step (lines 93-108 of the script):
`groupby(['periode','est_francophone']).size().unstack(fill_value=0)`,
the column rename to `['Autres pays', 'Pays francophones']`, and the
`'Total'` column.  The unstacked frame has one column per class value
actually present in the data, so the two-name rename raises a pandas
`ValueError` (length mismatch) unless both classes occur among the
records; that crash is the `none` branch.  The guard that would add a
missing column with zeros sits after the rename and is unreachable. -/
def aggregate (rs : List Record) (g : Gran) : Option (List Aggregate) :=
  if rs.any (fun r => est_francophone r.pays) && rs.any (fun r => !est_francophone r.pays) then
    some ((sortedKeys (rs.map fun r => periodKey r.date g)).map (aggRow rs g))
  else
    none

/-- One row of the percentage table `ventes_pourcentages`, over exact
rationals. -/
structure PctRow where
  periode : Int
  autres : ℚ
  francophones : ℚ
  total : ℚ
deriving DecidableEq, Repr

/-- The percentage transform of one counts row (lines 111-124),
idealized over exact rationals: for a period with sales, each class
count is divided by the total and scaled to 100 (two independent
divisions, both reading the untouched counts table) and the total
column is set to 100; a zero-total row is zeroed entirely.  The
program stores these columns as float64, under which the two shares
need not sum to exactly 100; `pctRowF64` below models that binary64
arithmetic, and the exact-rational view here is the pre-rounding
ideal. -/
def pctRow (a : Aggregate) : PctRow :=
  if 0 < a.total then
    { periode := a.periode
      autres := (a.autres : ℚ) / (a.total : ℚ) * 100
      francophones := (a.francophones : ℚ) / (a.total : ℚ) * 100
      total := 100 }
  else
    { periode := a.periode, autres := 0, francophones := 0, total := 0 }

/-- The percentage table: `ventes_pourcentages = ventes_par_periode.copy()`
followed by the masked column assignments, row by row. -/
def to_percentages (rows : List Aggregate) : List PctRow :=
  rows.map pctRow

/-- A raw table row before date conversion: the raw country cell and the
outcome of parsing its date cell (`none` when `pd.to_datetime` would
fail on it). -/
structure RawRecord where
  pays : List Char
  date : Option Date
deriving DecidableEq, Repr

/-- The loaded table: its column names and its rows.  File reading is an
external collaborator; this is the `df` the pipeline starts from. -/
structure InputData where
  columns : List (List Char)
  rows : List RawRecord
deriving DecidableEq, Repr

/-- The caller-supplied configuration of `analyser_ventes_francophones`:
the two field names, the raw granularity string, and the outcome of
parsing the start-date string (`none` when `pd.to_datetime(date_debut)`
would fail). -/
structure Config where
  colonne_pays : List Char
  colonne_date : List Char
  regroupement : List Char
  date_debut : Option Date
deriving DecidableEq, Repr

/-- The error taxonomy of one run: printed-and-return exits of the
script plus the uncaught pandas `ValueError` of the column rename
(`columnMismatch`).  `SourceNotFoundError` belongs to the excluded
file-reading collaborator. -/
inductive AnalyseError where
  | missingField (col : List Char) (available : List (List Char))
  | dateParse
  | emptyResult
  | unsupportedGranularity
  | columnMismatch
deriving DecidableEq, Repr

/-- The date-column conversion `pd.to_datetime(df[colonne_date])`:
succeeds with the parsed records iff every row's date cell parses. -/
def parseDates : List RawRecord → Option (List Record)
  | [] => some []
  | r :: rest =>
    match r.date with
    | none => none
    | some d => (parseDates rest).map (fun rs => { pays := r.pays, date := d } :: rs)

/-- The granularity lookup `regroupement in regroupements_labels`:
exactly the four one-letter codes are recognised. -/
def parseGran (s : List Char) : Option Gran :=
  if s = ['W'] then some Gran.W
  else if s = ['M'] then some Gran.M
  else if s = ['Q'] then some Gran.Q
  else if s = ['Y'] then some Gran.Y
  else none

/-- The whole run of `analyser_ventes_francophones` after file loading,
with the checks in source order: country column present, date column
present, date-column conversion, start-date parse, filter and
empty-result check, granularity check, aggregation (whose column rename
can raise), then the percentage table.  On success it returns the pair
`(ventes_par_periode, ventes_pourcentages)`. -/
def analyser_ventes_francophones (cfg : Config) (data : InputData) :
    Except AnalyseError (List Aggregate × List PctRow) :=
  if cfg.colonne_pays ∈ data.columns then
    if cfg.colonne_date ∈ data.columns then
      match parseDates data.rows with
      | none => Except.error AnalyseError.dateParse
      | some records =>
        match cfg.date_debut with
        | none => Except.error AnalyseError.dateParse
        | some lim =>
          if (filter_by_start_date records lim).length = 0 then
            Except.error AnalyseError.emptyResult
          else
            match parseGran cfg.regroupement with
            | none => Except.error AnalyseError.unsupportedGranularity
            | some g =>
              match aggregate (filter_by_start_date records lim) g with
              | none => Except.error AnalyseError.columnMismatch
              | some counts => Except.ok (counts, to_percentages counts)
    else Except.error (AnalyseError.missingField cfg.colonne_date data.columns)
  else Except.error (AnalyseError.missingField cfg.colonne_pays data.columns)

/-- The helper `analyser_multiple_regroupements`: one call of the main
routine per granularity code, in the dictionary order W, M, Q, Y, with
the same table, field names and start date each time (the `try/except`
around each call is subsumed by the `Except` result). -/
def analyser_multiple_regroupements (colonne_pays colonne_date : List Char)
    (date_debut : Option Date) (data : InputData) :
    List (Except AnalyseError (List Aggregate × List PctRow)) :=
  [['W'], ['M'], ['Q'], ['Y']].map fun code =>
    analyser_ventes_francophones
      { colonne_pays := colonne_pays, colonne_date := colonne_date,
        regroupement := code, date_debut := date_debut } data

deriving instance DecidableEq for Except

/-- A finite IEEE 754 binary64 value, as an exact dyadic rational
`m * 2 ^ e`.  The percentage columns of the script are float64; this
representation covers them (their magnitudes stay in the normal range,
so neither overflow nor subnormals arise). -/
structure F64 where
  m : Int
  e : Int
deriving DecidableEq, Repr

/-- `2 ^ k` as an integer. -/
def pow2 (k : Nat) : Int := ((2 ^ k : Nat) : Int)

/-- Round the fraction `a / b` (with `b > 0`) to the nearest integer,
ties to even - the IEEE 754 default rounding. -/
def rneInt (a b : Int) : Int :=
  let fl := a.fdiv b
  let r := a - fl * b
  if 2 * r < b then fl
  else if b < 2 * r then fl + 1
  else if fl.emod 2 = 0 then fl else fl + 1

/-- Fuelled floor base-2 logarithm on naturals (the fuel bounds the
recursion depth; 128 covers every value arising here). -/
def log2F : Nat → Nat → Nat
  | 0, _ => 0
  | fuel + 1, n => if 2 ≤ n then log2F fuel (n / 2) + 1 else 0

/-- Floor base-2 logarithm of the positive fraction `a / b`. -/
def floorLog2Frac (a b : Int) : Int :=
  if b ≤ a then (log2F 128 (a.toNat / b.toNat) : Int)
  else
    let ep := log2F 128 (b.toNat / a.toNat)
    if a * pow2 ep = b then -(ep : Int) else -(ep : Int) - 1

/-- The correctly rounded binary64 value of the fraction `a / b`
(`a ≥ 0`, `b > 0`): a 53-bit significand scaled so the value lies in
`[2 ^ 52, 2 ^ 53)`, rounded to nearest, ties to even.  This is the
result IEEE 754 prescribes for the float64 division of the exactly
representable integers `a` and `b`. -/
def roundF (a b : Int) : F64 :=
  if a = 0 then { m := 0, e := 0 }
  else
    let e := floorLog2Frac a b - 52
    if 0 ≤ e then { m := rneInt a (b * pow2 e.toNat), e := e }
    else { m := rneInt (a * pow2 (-e).toNat) b, e := e }

/-- Round a (nonnegative) exact dyadic value back to binary64 - the
rounding step that follows every float64 operation. -/
def F64.round (x : F64) : F64 :=
  if 0 ≤ x.e then roundF (x.m * pow2 x.e.toNat) 1 else roundF x.m (pow2 (-x.e).toNat)

/-- The binary64 value of a small integer (exactly representable). -/
def F64.ofInt (n : Int) : F64 := roundF n 1

/-- The exact (unrounded) sum of two dyadic values, on the common
exponent. -/
def F64.exactAdd (x y : F64) : F64 :=
  if x.e ≤ y.e then { m := x.m + y.m * pow2 (y.e - x.e).toNat, e := x.e }
  else { m := x.m * pow2 (x.e - y.e).toNat + y.m, e := y.e }

/-- Float64 addition: exact sum, then rounding. -/
def F64.fadd (x y : F64) : F64 := (x.exactAdd y).round

/-- Float64 subtraction: exact difference, then rounding. -/
def F64.fsub (x y : F64) : F64 := (x.exactAdd { m := -y.m, e := y.e }).round

/-- Float64 multiplication by the exact constant 100: exact product,
then rounding - the `* 100` of lines 114-121. -/
def F64.mul100 (x : F64) : F64 := F64.round { m := x.m * 100, e := x.e }

/-- Whether a dyadic value equals an integer, by cross multiplication. -/
def F64.valEqInt (x : F64) (c : Int) : Bool :=
  if 0 ≤ x.e then x.m * pow2 x.e.toNat == c else x.m == c * pow2 (-x.e).toNat

/-- Whether two dyadic values are equal as rationals (representations
need not be normalized), by cross multiplication. -/
def F64.sameVal (x y : F64) : Bool :=
  if x.e ≤ y.e then x.m == y.m * pow2 (y.e - x.e).toNat
  else x.m * pow2 (x.e - y.e).toNat == y.m

/-- One row of the percentage table in the program's own float64
arithmetic (lines 114-121): the integer counts convert to float64
exactly, each class share is an independent correctly rounded division
by the total followed by a correctly rounded scaling by 100, and the
total column is set to the constant 100. -/
structure PctRowF64 where
  periode : Int
  autres : F64
  francophones : F64
  total : F64
deriving DecidableEq, Repr

/-- The float64 percentage transform of one counts row, mirroring
`pctRow` without the exact-rational idealization. -/
def pctRowF64 (a : Aggregate) : PctRowF64 :=
  if 0 < a.total then
    { periode := a.periode
      autres := (roundF (a.autres : Int) (a.total : Int)).mul100
      francophones := (roundF (a.francophones : Int) (a.total : Int)).mul100
      total := F64.ofInt 100 }
  else
    { periode := a.periode, autres := F64.ofInt 0, francophones := F64.ofInt 0,
      total := F64.ofInt 0 }

/-- The January 2020 counts row with one francophone and two other
sales - the counts at which the float64 shares fail to sum to 100. -/
def aggThird : Aggregate :=
  { periode := 24240, autres := 2, francophones := 1, total := 3 }

/-- Concrete record: country `FR`, dated 2020-01-15 (the spec's
scenario data). -/
def recFR : Record := { pays := ['F', 'R'], date := { year := 2020, month := 1, day := 15 } }

/-- Concrete record: country `us`, dated 2020-01-20. -/
def recUS : Record := { pays := ['u', 's'], date := { year := 2020, month := 1, day := 20 } }

/-- Concrete record: country `ca`, dated 2020-02-01. -/
def recCA : Record := { pays := ['c', 'a'], date := { year := 2020, month := 2, day := 1 } }

/-- Concrete start date 2020-01-01. -/
def dDebut : Date := { year := 2020, month := 1, day := 1 }

/-- A concrete loaded table whose single row has country `fr` and date
2020-01-15: every record is francophone. -/
def dataMono : InputData :=
  { columns := [['p', 'a', 'y', 's'], ['d', 'a', 't', 'e']]
    rows := [{ pays := ['f', 'r'], date := some { year := 2020, month := 1, day := 15 } }] }

/-- A configuration matching `dataMono`: both field names present, valid
monthly granularity, parseable start date 2020-01-01. -/
def cfgMono : Config :=
  { colonne_pays := ['p', 'a', 'y', 's']
    colonne_date := ['d', 'a', 't', 'e']
    regroupement := ['M']
    date_debut := some dDebut }

/-- The parsed records of `dataMono`. -/
def recsMono : List Record :=
  [{ pays := ['f', 'r'], date := { year := 2020, month := 1, day := 15 } }]

/-- A concrete loaded table with the spec scenario's three rows
(FR 2020-01-15, us 2020-01-20, ca 2020-02-01). -/
def dataTri : InputData :=
  { columns := [['p', 'a', 'y', 's'], ['d', 'a', 't', 'e']]
    rows := [{ pays := ['F', 'R'], date := some { year := 2020, month := 1, day := 15 } },
             { pays := ['u', 's'], date := some { year := 2020, month := 1, day := 20 } },
             { pays := ['c', 'a'], date := some { year := 2020, month := 2, day := 1 } }] }

/-- A configuration matching `dataTri` with monthly granularity. -/
def cfgTri : Config :=
  { colonne_pays := ['p', 'a', 'y', 's']
    colonne_date := ['d', 'a', 't', 'e']
    regroupement := ['M']
    date_debut := some dDebut }

/-- The counts table of the run on `cfgTri`/`dataTri`: January 2020
(key 24240) has one sale of each class, February 2020 (key 24241) one
francophone sale. -/
def countsTri : List Aggregate :=
  [{ periode := 24240, autres := 1, francophones := 1, total := 2 },
   { periode := 24241, autres := 0, francophones := 1, total := 1 }]

/-- The single counts row of the two-record list `[recFR, recUS]` at
monthly granularity: both records fall in January 2020 (key 24240). -/
def rowsDuo : List Aggregate :=
  [{ periode := 24240, autres := 1, francophones := 1, total := 2 }]

/-- The January 2020 counts row of the spec scenario. -/
def aggJan : Aggregate :=
  { periode := 24240, autres := 1, francophones := 1, total := 2 }

/-- Splitting a count by a second Boolean attribute: the records
matching `p` with `c` false plus those with `c` true are the records
matching `p`. -/
theorem countP_split {α : Type} (l : List α) (p c : α → Bool) :
    l.countP (fun r => p r && !c r) + l.countP (fun r => p r && c r) = l.countP p := by
  induction l with
  | nil => simp
  | cons a l ih =>
    simp only [List.countP_cons]
    cases hp : p a <;> cases hc : c a <;> simp [hp, hc] <;> omega

/-- Distributing a list sum over a pointwise sum of two maps. -/
theorem sum_map_add {ι : Type} (keys : List ι) (a b : ι → ℕ) :
    (keys.map fun k => a k + b k).sum = (keys.map a).sum + (keys.map b).sum := by
  induction keys with
  | nil => simp
  | cons k ks ih => simp only [List.map_cons, List.sum_cons, ih]; omega

/-- An indicator summed over a list avoiding the point is zero. -/
theorem sum_indicator_not_mem (keys : List Int) (x : Int) (h : x ∉ keys) :
    (keys.map fun k => if x = k then (1 : ℕ) else 0).sum = 0 := by
  induction keys with
  | nil => simp
  | cons k ks ih =>
    have hx : x ≠ k := fun e => h (e ▸ List.mem_cons_self k ks)
    have hks : x ∉ ks := fun e => h (List.mem_cons_of_mem k e)
    simp [hx, ih hks]

/-- An indicator summed over a duplicate-free list containing the point
is one. -/
theorem sum_indicator_mem (keys : List Int) (x : Int) (h1 : keys.Nodup)
    (h2 : x ∈ keys) :
    (keys.map fun k => if x = k then (1 : ℕ) else 0).sum = 1 := by
  induction keys with
  | nil => cases h2
  | cons k ks ih =>
    rcases List.mem_cons.mp h2 with he | hm
    · subst he
      have : x ∉ ks := (List.nodup_cons.mp h1).1
      simp [sum_indicator_not_mem ks x this]
    · have hx : x ≠ k := by
        rintro rfl
        exact (List.nodup_cons.mp h1).1 hm
      simp only [List.map_cons, List.sum_cons]
      rw [ih (List.nodup_cons.mp h1).2 hm]
      simp [hx]

/-- Counting by key over the distinct keys recovers the list length:
every element lands in exactly one key bucket. -/
theorem sum_countP_eq_length {α : Type} (keys : List Int) (rs : List α) (f : α → Int)
    (h1 : keys.Nodup) (h2 : ∀ r ∈ rs, f r ∈ keys) :
    (keys.map fun k => rs.countP (fun r => f r == k)).sum = rs.length := by
  induction rs with
  | nil => simp
  | cons r rs ih =>
    have hr : f r ∈ keys := h2 r (List.mem_cons_self r rs)
    have hrs : ∀ x ∈ rs, f x ∈ keys := fun x hx => h2 x (List.mem_cons_of_mem r hx)
    simp only [List.countP_cons, beq_iff_eq]
    rw [sum_map_add keys (fun k => rs.countP (fun x => f x == k))
      (fun k => if f r = k then 1 else 0), ih hrs, sum_indicator_mem keys (f r) h1 hr]
    simp [List.length_cons]

/-- `sortedKeys` is sorted. -/
theorem sortedKeys_sorted (l : List Int) : (sortedKeys l).Sorted (· ≤ ·) :=
  List.sorted_insertionSort _ _

/-- `sortedKeys` has no duplicates. -/
theorem sortedKeys_nodup (l : List Int) : (sortedKeys l).Nodup :=
  ((List.perm_insertionSort _ _).nodup_iff).mpr l.nodup_dedup

/-- Membership in `sortedKeys` is membership in the key list. -/
theorem mem_sortedKeys {l : List Int} {k : Int} : k ∈ sortedKeys l ↔ k ∈ l :=
  ((List.perm_insertionSort _ _).mem_iff).trans (List.mem_dedup)

/-- `sortedKeys` only depends on the multiset of keys. -/
theorem sortedKeys_perm {l l2 : List Int} (h : l.Perm l2) :
    sortedKeys l = sortedKeys l2 :=
  List.eq_of_perm_of_sorted
    ((List.perm_insertionSort _ _).trans (h.dedup.trans (List.perm_insertionSort _ _).symm))
    (sortedKeys_sorted l) (sortedKeys_sorted l2)

/-- Unfolding a successful aggregation. -/
theorem aggregate_eq_some {rs : List Record} {g : Gran} {rows : List Aggregate}
    (h : aggregate rs g = some rows) :
    rows = (sortedKeys (rs.map fun r => periodKey r.date g)).map (aggRow rs g) := by
  unfold aggregate at h
  split at h
  · exact (Option.some.inj h).symm
  · exact Option.noConfusion h

/-- Every row of a successful aggregation is the counts row of a key
that occurs among the records. -/
theorem mem_aggregate_row {rs : List Record} {g : Gran} {rows : List Aggregate}
    {a : Aggregate} (h : aggregate rs g = some rows) (ha : a ∈ rows) :
    ∃ k, k ∈ rs.map (fun r => periodKey r.date g) ∧ a = aggRow rs g k := by
  rw [aggregate_eq_some h] at ha
  rcases List.mem_map.mp ha with ⟨k, hk, he⟩
  exact ⟨k, mem_sortedKeys.mp hk, he.symm⟩

/-- In every aggregate row the total column is the sum of the two class
columns. -/
theorem mem_aggregate_total {rs : List Record} {g : Gran} {rows : List Aggregate}
    {a : Aggregate} (h : aggregate rs g = some rows) (ha : a ∈ rows) :
    a.total = a.autres + a.francophones := by
  rcases mem_aggregate_row h ha with ⟨k, _, rfl⟩
  rfl

/-- `List.any` only depends on the multiset of elements. -/
theorem perm_any {α : Type} {l l2 : List α} (h : l.Perm l2) (f : α → Bool) :
    l.any f = l2.any f := by
  cases h1 : l.any f <;> cases h2 : l2.any f <;> try rfl
  · rw [List.any_eq_true] at h2
    rcases h2 with ⟨x, hx, hfx⟩
    have hc : l.any f = true := List.any_eq_true.mpr ⟨x, h.mem_iff.mpr hx, hfx⟩
    rw [h1] at hc
    exact Bool.noConfusion hc
  · rw [List.any_eq_true] at h1
    rcases h1 with ⟨x, hx, hfx⟩
    have hc : l2.any f = true := List.any_eq_true.mpr ⟨x, h.mem_iff.mp hx, hfx⟩
    rw [h2] at hc
    exact Bool.noConfusion hc

/-- The counts row of a key is the same over two record lists that are
permutations of each other. -/
theorem aggRow_perm {rs rs2 : List Record} (g : Gran) (hp : rs.Perm rs2) :
    aggRow rs g = aggRow rs2 g := by
  funext k
  unfold aggRow
  rw [hp.countP_eq, hp.countP_eq]

/-- The aggregation step only depends on the multiset of records. -/
theorem aggregate_perm {rs rs2 : List Record} (g : Gran) (hp : rs.Perm rs2) :
    aggregate rs g = aggregate rs2 g := by
  unfold aggregate
  rw [perm_any hp (fun r => est_francophone r.pays),
    perm_any hp (fun r => !est_francophone r.pays),
    sortedKeys_perm (hp.map (fun r => periodKey r.date g)),
    aggRow_perm g hp]

/-- C3: for every period aggregate produced by the aggregation step,
`francophone_count + other_count == total_count`. -/
theorem aggregate_class_counts_sum_to_total
    (rs : List Record) (g : Gran) (rows : List Aggregate)
    (h : aggregate rs g = some rows) :
    ∀ a ∈ rows, a.francophones + a.autres = a.total := by
  intro a ha
  rw [mem_aggregate_total h ha]
  omega

/-- Witness for C3 on the spec scenario's records. -/
theorem aggregate_class_counts_sum_to_total_witness :
    aggregate [recFR, recUS, recCA] Gran.M = some [aggJan,
      { periode := 24241, autres := 0, francophones := 1, total := 1 }] ∧
    aggJan.francophones + aggJan.autres = aggJan.total :=
  ⟨by decide,
    aggregate_class_counts_sum_to_total [recFR, recUS, recCA] Gran.M
      [aggJan, { periode := 24241, autres := 0, francophones := 1, total := 1 }]
      (by decide) aggJan (by decide)⟩

/-- C4: the totals of the aggregates of the filtered records sum to the
number of filtered records, and no aggregate row stands for an empty
period (every total is positive). -/
theorem aggregate_conserves_filtered_count
    (R : List Record) (lim : Date) (g : Gran) (rows : List Aggregate)
    (h : aggregate (filter_by_start_date R lim) g = some rows) :
    (rows.map Aggregate.total).sum = (filter_by_start_date R lim).length ∧
    ∀ a ∈ rows, 0 < a.total := by
  constructor
  · rw [aggregate_eq_some h, List.map_map]
    have hcomp : (Aggregate.total ∘ aggRow (filter_by_start_date R lim) g)
        = fun k => (filter_by_start_date R lim).countP
          (fun r => periodKey r.date g == k) := by
      funext k
      exact countP_split (filter_by_start_date R lim)
        (fun r => periodKey r.date g == k) (fun r => est_francophone r.pays)
    rw [hcomp]
    exact sum_countP_eq_length _ _ _ (sortedKeys_nodup _)
      (fun r hr => mem_sortedKeys.mpr (List.mem_map_of_mem _ hr))
  · intro a ha
    rcases mem_aggregate_row h ha with ⟨k, hk, rfl⟩
    have htot : (aggRow (filter_by_start_date R lim) g k).total
        = (filter_by_start_date R lim).countP (fun r => periodKey r.date g == k) :=
      countP_split _ _ _
    rw [htot, List.countP_pos_iff]
    rcases List.mem_map.mp hk with ⟨r, hr, hfr⟩
    exact ⟨r, hr, by simp [hfr]⟩

/-- Witness for C4 on the spec scenario's records. -/
theorem aggregate_conserves_filtered_count_witness :
    (([aggJan, { periode := 24241, autres := 0, francophones := 1, total := 1 }]).map
        Aggregate.total).sum
      = (filter_by_start_date [recFR, recUS, recCA] dDebut).length :=
  (aggregate_conserves_filtered_count [recFR, recUS, recCA] dDebut Gran.M
    [aggJan, { periode := 24241, autres := 0, francophones := 1, total := 1 }]
    (by decide)).1

/-- C5: a successful aggregation is strictly ascending in the period
key, and aggregation is order-independent: any permutation of the
records yields the identical output. -/
theorem aggregate_ascending_and_order_independent
    (g : Gran) (rs rs2 : List Record) (rows : List Aggregate)
    (hp : rs.Perm rs2) (h : aggregate rs g = some rows) :
    rows.Pairwise (fun a b => a.periode < b.periode) ∧ aggregate rs2 g = some rows := by
  constructor
  · rw [aggregate_eq_some h]
    have hsk : (sortedKeys (rs.map fun r => periodKey r.date g)).Sorted (· < ·) :=
      (sortedKeys_sorted _).lt_of_le (sortedKeys_nodup _)
    exact List.Pairwise.map _ (fun a b hab => hab) hsk
  · rw [← aggregate_perm g hp]
    exact h

/-- Witness for C5: swapping the two January records leaves the single
aggregate row unchanged and the output is (trivially) ascending. -/
theorem aggregate_ascending_and_order_independent_witness :
    List.Perm [recFR, recUS] [recUS, recFR] ∧
    aggregate [recFR, recUS] Gran.M = some rowsDuo ∧
    (rowsDuo.Pairwise (fun a b => a.periode < b.periode) ∧
      aggregate [recUS, recFR] Gran.M = some rowsDuo) :=
  ⟨by decide, by decide,
    aggregate_ascending_and_order_independent Gran.M [recFR, recUS] [recUS, recFR]
      rowsDuo (by decide) (by decide)⟩

/-- C1 (amended): for every aggregate row with a positive total, the
percentage row computes each share by an independent division; in
exact (pre-float) arithmetic those values satisfy
`percentage_francophone = 100 * francophone_count / total_count`,
`percentage_other = 100 - percentage_francophone` and
`percentage_francophone + percentage_other = 100` exactly.  In the
program's float64 arithmetic the stored shares need not satisfy the
last two identities (see the counterexample
`pct_shares_float64_not_sum_100`). -/
theorem to_percentages_shares_sum_to_100
    (rs : List Record) (g : Gran) (rows : List Aggregate) (a : Aggregate)
    (h : aggregate rs g = some rows) (ha : a ∈ rows) (hpos : 0 < a.total) :
    pctRow a ∈ to_percentages rows ∧
    (pctRow a).francophones = 100 * (a.francophones : ℚ) / (a.total : ℚ) ∧
    (pctRow a).autres = 100 - (pctRow a).francophones ∧
    (pctRow a).francophones + (pctRow a).autres = 100 := by
  have htot := mem_aggregate_total h ha
  have htne : (a.total : ℚ) ≠ 0 := by
    exact_mod_cast Nat.pos_iff_ne_zero.mp hpos
  have hcast : (a.autres : ℚ) + (a.francophones : ℚ) = (a.total : ℚ) := by
    rw [htot]
    push_cast
    ring
  refine ⟨List.mem_map_of_mem _ ha, ?_, ?_, ?_⟩
  · simp only [pctRow, if_pos hpos]
    ring
  · simp only [pctRow, if_pos hpos]
    field_simp
    linarith
  · simp only [pctRow, if_pos hpos]
    field_simp
    linarith

/-- Witness for C1 on the January 2020 row of the spec scenario. -/
theorem to_percentages_shares_sum_to_100_witness :
    pctRow aggJan ∈ to_percentages [aggJan,
      { periode := 24241, autres := 0, francophones := 1, total := 1 }] ∧
    (pctRow aggJan).francophones = 100 * (aggJan.francophones : ℚ) / (aggJan.total : ℚ) ∧
    (pctRow aggJan).autres = 100 - (pctRow aggJan).francophones ∧
    (pctRow aggJan).francophones + (pctRow aggJan).autres = 100 :=
  to_percentages_shares_sum_to_100 [recFR, recUS, recCA] Gran.M
    [aggJan, { periode := 24241, autres := 0, francophones := 1, total := 1 }]
    aggJan (by decide) (by decide) (by decide)

/-- C1 (counterexample to the claim as stated): in the program's own
float64 arithmetic the claimed identities fail.  At the reachable
counts (francophone = 1, other = 2, total = 3) - produced by one
francophone and two other records in January 2020 - the two
independently divided float64 shares are 33.33333333333333 and
66.66666666666666; their exact sum is not 100 (it is
99.99999999999999, off by one unit in the last place), and the
`Autres pays` share differs from the float64 value of
`100 - percentage_francophone`, so `percentage_other` is not computed
from `percentage_francophone` and the sum-to-100 invariant does not
hold exactly before rounding. -/
theorem pct_shares_float64_not_sum_100 :
    aggregate [recFR, recUS, recUS] Gran.M = some [aggThird] ∧
    F64.valEqInt
      ((pctRowF64 aggThird).francophones.exactAdd (pctRowF64 aggThird).autres) 100
      = false ∧
    F64.sameVal
      (pctRowF64 aggThird).autres
      (F64.fsub (F64.ofInt 100) (pctRowF64 aggThird).francophones) = false ∧
    (pctRowF64 aggThird).francophones.fadd (pctRowF64 aggThird).autres
      = { m := 7036874417766399, e := -46 } := by
  decide

/-- C6: classification is total and goes through lowercasing and
trimming: a raw country cell classifies francophone iff its normalised
form is one of `fr`, `be`, `ch`, `nc`, `ca`, `lu`; the variants
`"FR "`, `"fr"`, `" fR"` classify identically (all francophone) and the
empty cell classifies as other. -/
theorem est_francophone_case_whitespace_insensitive :
    (∀ cs : List Char, est_francophone cs = true ↔
      (normalizeCountry cs = ['f', 'r'] ∨ normalizeCountry cs = ['b', 'e'] ∨
       normalizeCountry cs = ['c', 'h'] ∨ normalizeCountry cs = ['n', 'c'] ∨
       normalizeCountry cs = ['c', 'a'] ∨ normalizeCountry cs = ['l', 'u'])) ∧
    est_francophone ['F', 'R', ' '] = true ∧
    est_francophone ['f', 'r'] = true ∧
    est_francophone [' ', 'f', 'R'] = true ∧
    est_francophone [] = false := by
  refine ⟨fun cs => ?_, by decide, by decide, by decide, by decide⟩
  simp [est_francophone, pays_francophones]

/-- C7: the date filter keeps exactly the records whose timestamp is on
or after the cutoff (inclusive lower bound), as a subsequence of the
input. -/
theorem filter_by_start_date_inclusive (rs : List Record) (lim : Date) :
    (filter_by_start_date rs lim).Sublist rs ∧
    ∀ r : Record, r ∈ filter_by_start_date rs lim ↔
      r ∈ rs ∧ lim.toDays ≤ r.date.toDays := by
  refine ⟨List.filter_sublist rs, fun r => ?_⟩
  simp [filter_by_start_date, List.mem_filter]

/-- C2 (counterexample to the claimed behaviour): on a record set whose
post-filter records are all of one class, the aggregation step does not
synthesize a zero column — the two-name column rename fails (pandas
`ValueError`, the `none` branch), for all-francophone and for
all-other inputs alike; with both classes present it succeeds. -/
theorem aggregate_single_class_has_no_table :
    aggregate recsMono Gran.M = none ∧
    aggregate [recUS] Gran.M = none ∧
    aggregate [recFR, recUS, recCA] Gran.M =
      some [aggJan, { periode := 24241, autres := 0, francophones := 1, total := 1 }] := by
  decide

/-- C8 (the code violates the claim): on `dataMono` every listed error
condition is absent — both configured columns exist, all dates and the
start date parse, the post-filter set is non-empty, the granularity is
`M` — yet the run produces no counts/percentages pair: it ends in the
uncaught column-rename error instead of the claimed full output. -/
theorem analyser_no_listed_error_still_fails :
    cfgMono.colonne_pays ∈ dataMono.columns ∧
    cfgMono.colonne_date ∈ dataMono.columns ∧
    parseDates dataMono.rows = some recsMono ∧
    cfgMono.date_debut = some dDebut ∧
    (filter_by_start_date recsMono dDebut).length ≠ 0 ∧
    parseGran cfgMono.regroupement = some Gran.M ∧
    analyser_ventes_francophones cfgMono dataMono =
      Except.error AnalyseError.columnMismatch := by
  decide

/-- C9: the multi-granularity helper is exactly one invocation of the
main routine per granularity, in the order W, M, Q, Y, with the same
table, field names and start date each time. -/
theorem multiple_regroupements_is_four_calls (colonne_pays colonne_date : List Char)
    (date_debut : Option Date) (data : InputData) :
    analyser_multiple_regroupements colonne_pays colonne_date date_debut data =
      [analyser_ventes_francophones
        { colonne_pays := colonne_pays, colonne_date := colonne_date,
          regroupement := ['W'], date_debut := date_debut } data,
       analyser_ventes_francophones
        { colonne_pays := colonne_pays, colonne_date := colonne_date,
          regroupement := ['M'], date_debut := date_debut } data,
       analyser_ventes_francophones
        { colonne_pays := colonne_pays, colonne_date := colonne_date,
          regroupement := ['Q'], date_debut := date_debut } data,
       analyser_ventes_francophones
        { colonne_pays := colonne_pays, colonne_date := colonne_date,
          regroupement := ['Y'], date_debut := date_debut } data] := rfl

/-- C10: a successful run returns the counts table exactly as the
aggregation step produced it — the percentage computation operates on a
copy, so the integer class and total counts are unchanged — together
with the percentage table derived from those counts. -/
theorem analyser_ok_counts_untouched (cfg : Config) (data : InputData)
    (out : List Aggregate × List PctRow)
    (h : analyser_ventes_francophones cfg data = Except.ok out) :
    ∃ records lim g, parseDates data.rows = some records ∧
      cfg.date_debut = some lim ∧
      parseGran cfg.regroupement = some g ∧
      aggregate (filter_by_start_date records lim) g = some out.1 ∧
      out.2 = to_percentages out.1 := by
  unfold analyser_ventes_francophones at h
  split at h
  · split at h
    · split at h
      · exact Except.noConfusion h
      · rename_i records hrec
        split at h
        · exact Except.noConfusion h
        · rename_i lim hlim
          split at h
          · exact Except.noConfusion h
          · split at h
            · exact Except.noConfusion h
            · rename_i g hg
              split at h
              · exact Except.noConfusion h
              · rename_i counts hagg
                have h2 : (counts, to_percentages counts) = out := Except.ok.inj h
                refine ⟨records, lim, g, hrec, hlim, hg, ?_, ?_⟩
                · rw [hagg, ← h2]
                · rw [← h2]
    · exact Except.noConfusion h
  · exact Except.noConfusion h

/-- Witness for C10 on the spec scenario's table. -/
theorem analyser_ok_counts_untouched_witness :
    ∃ records lim g, parseDates dataTri.rows = some records ∧
      cfgTri.date_debut = some lim ∧
      parseGran cfgTri.regroupement = some g ∧
      aggregate (filter_by_start_date records lim) g
        = some (countsTri, to_percentages countsTri).1 ∧
      (countsTri, to_percentages countsTri).2
        = to_percentages (countsTri, to_percentages countsTri).1 :=
  analyser_ok_counts_untouched cfgTri dataTri (countsTri, to_percentages countsTri) (by rfl)
